import Mathlib

/-!
Shallow embedding of `jetstream/experimenter.py`.

Conventions of the embedding:
* A `dt.datetime` carrying `pytz.utc` is modelled as an `Int`: microseconds
  since the Unix epoch (Python datetimes have microsecond resolution).
* Raw JSON values are modelled by the inductive `Json`; JSON numbers are
  modelled as `Int` (the timestamps and ratios the module consumes are
  integral).
* A Python expression that may raise is modelled as `Except String α`,
  the `String` holding the exception rendering.  `cattr`'s structuring of a
  record is modelled field by field, in attribute order, strictly by JSON
  type (primitive coercions such as `str(x)` on a non-string are not
  modelled; the API contract delivers correctly typed primitives).
* `dt.datetime.now()` inside `ExperimentV6.to_experiment` is modelled by an
  explicit `now : Int` parameter threaded to the conversion.
* `time.sleep(1)` is modelled by counting the seconds deliberately slept:
  `_retry_get` returns the result paired with that count.
-/

namespace Jetstream

/-- Microseconds since the Unix epoch, UTC (model of an aware `dt.datetime`). -/
abbrev Instant := Int

/-- Raw decoded JSON, as returned by `session.get(url).json()`. -/
inductive Json where
  | null : Json
  | bool (b : Bool) : Json
  | num (n : Int) : Json
  | str (s : String) : Json
  | arr (elems : List Json) : Json
  | obj (fields : List (String × Json)) : Json

/-- Model of `d[key]` on a raw JSON value: `KeyError` when the key is
missing, `TypeError` when the value is not an object. -/
def dictGet (j : Json) (key : String) : Except String Json :=
  match j with
  | Json.obj fields =>
      match fields.lookup key with
      | some v => Except.ok v
      | none => Except.error ("KeyError: " ++ key)
  | _ => Except.error "TypeError: not a dict"

/-- `key in d` for a raw JSON object (`false` when not an object). -/
def hasKey (j : Json) (key : String) : Bool :=
  match j with
  | Json.obj fields => (fields.lookup key).isSome
  | _ => false

/-- Model of Python `value == s` for a JSON value against a string literal:
true exactly when the value is that string. -/
def jsonEqStr (j : Json) (s : String) : Bool :=
  match j with
  | Json.str t => t == s
  | _ => false

/-- `Variant`: one arm of a legacy (v1) experiment. -/
structure Variant where
  is_control : Bool
  slug : String
  ratio : Int

/-- `_coerce_none_to_zero`: `0 if x is None else x`. -/
def _coerce_none_to_zero (x : Option Int) : Int :=
  match x with
  | none => 0
  | some v => v

/-- `Branch`: one arm of an experiment in canonical form. -/
structure Branch where
  slug : String
  ratio : Int

/-- `Experiment`: the common Experimenter experiment representation. -/
structure Experiment where
  experimenter_slug : Option String
  normandy_slug : Option String
  type : String
  status : Option String
  branches : List Branch
  probe_sets : List String
  start_date : Option Instant
  end_date : Option Instant
  proposed_enrollment : Option Int
  reference_branch : Option String
  is_high_population : Bool

/-- `ExperimentV1`: the intermediate record for the legacy schema.
`proposed_enrollment` is stored after the attrs converter
`_coerce_none_to_zero` has run, hence `Int` rather than `Option Int`. -/
structure ExperimentV1 where
  slug : String
  type : String
  status : String
  start_date : Option Instant
  end_date : Option Instant
  proposed_enrollment : Int
  variants : List Variant
  normandy_slug : Option String
  is_high_population : Option Bool

/-- `ExperimentV1._unix_millis_to_datetime`: `None` stays `None`; a
millisecond epoch number becomes the corresponding UTC instant
(`dt.datetime.fromtimestamp(num / 1e3, pytz.utc)`), i.e. `num * 1000`
microseconds since the epoch. -/
def ExperimentV1._unix_millis_to_datetime (num : Option Int) : Option Instant :=
  match num with
  | none => none
  | some n => some (n * 1000)

/-- Structuring a `str` field: only a JSON string is accepted. -/
def asStr (j : Json) : Except String String :=
  match j with
  | Json.str s => Except.ok s
  | _ => Except.error "TypeError: expected str"

/-- Structuring an `int` field: only a JSON number is accepted. -/
def asInt (j : Json) : Except String Int :=
  match j with
  | Json.num n => Except.ok n
  | _ => Except.error "TypeError: expected int"

/-- Structuring a `bool` field. -/
def asBool (j : Json) : Except String Bool :=
  match j with
  | Json.bool b => Except.ok b
  | _ => Except.error "TypeError: expected bool"

/-- Structuring an `Optional[str]` field: `null` becomes `None`. -/
def asOptStr (j : Json) : Except String (Option String) :=
  match j with
  | Json.null => Except.ok none
  | Json.str s => Except.ok (some s)
  | _ => Except.error "TypeError: expected str or None"

/-- Structuring an `Optional[int]` field: `null` becomes `None`. -/
def asOptInt (j : Json) : Except String (Option Int) :=
  match j with
  | Json.null => Except.ok none
  | Json.num n => Except.ok (some n)
  | _ => Except.error "TypeError: expected int or None"

/-- Structuring an `Optional[bool]` field: `null` becomes `None`. -/
def asOptBool (j : Json) : Except String (Option Bool) :=
  match j with
  | Json.null => Except.ok none
  | Json.bool b => Except.ok (some b)
  | _ => Except.error "TypeError: expected bool or None"

/-- Structuring a `List[T]` field: decode every element of a JSON array. -/
def decodeList (dec : Json → Except String α) (j : Json) : Except String (List α) :=
  match j with
  | Json.arr xs => xs.mapM dec
  | _ => Except.error "TypeError: expected list"

/-- `cattr` structuring of an attrs field that has a default: a missing key
yields the default, a present key is decoded. -/
def optField (j : Json) (key : String) (dec : Json → Except String α) (dflt : α) :
    Except String α :=
  match j with
  | Json.obj fields =>
      match fields.lookup key with
      | some v => dec v
      | none => Except.ok dflt
  | _ => Except.error "TypeError: not a dict"

/-- The structure hook registered in `ExperimentV1.from_dict` for
`Optional[dt.datetime]` fields: `null` stays `None`, a number goes through
`_unix_millis_to_datetime`, anything else fails to structure. -/
def structureOptDatetimeV1 (j : Json) : Except String (Option Instant) :=
  match j with
  | Json.null => Except.ok none
  | Json.num n => Except.ok (ExperimentV1._unix_millis_to_datetime (some n))
  | _ => Except.error "TypeError: unsupported operand for /"

/-- `cattr` structuring of one raw `variants` element into a `Variant`. -/
def decodeVariant (j : Json) : Except String Variant := do
  let c ← dictGet j "is_control" >>= asBool
  let s ← dictGet j "slug" >>= asStr
  let r ← dictGet j "ratio" >>= asInt
  Except.ok { is_control := c, slug := s, ratio := r }

/-- `ExperimentV1.from_dict`: `cattr` structuring of a raw legacy record,
with the millisecond-epoch hook for datetime fields.  `slug`, `type`,
`status`, `start_date`, `end_date`, `proposed_enrollment` and `variants`
are required keys; `normandy_slug` and `is_high_population` default to
`None`.  The attrs converter `_coerce_none_to_zero` runs on
`proposed_enrollment` at construction. -/
def ExperimentV1.from_dict (j : Json) : Except String ExperimentV1 := do
  let slug ← dictGet j "slug" >>= asStr
  let ty ← dictGet j "type" >>= asStr
  let status ← dictGet j "status" >>= asStr
  let start_date ← dictGet j "start_date" >>= structureOptDatetimeV1
  let end_date ← dictGet j "end_date" >>= structureOptDatetimeV1
  let pe ← dictGet j "proposed_enrollment" >>= asOptInt
  let variants ← dictGet j "variants" >>= decodeList decodeVariant
  let normandy_slug ← optField j "normandy_slug" asOptStr none
  let ihp ← optField j "is_high_population" asOptBool none
  Except.ok
    { slug := slug, type := ty, status := status, start_date := start_date,
      end_date := end_date, proposed_enrollment := _coerce_none_to_zero pe,
      variants := variants, normandy_slug := normandy_slug,
      is_high_population := ihp }

/-- `ExperimentV1.to_experiment`: convert the legacy record to the
canonical `Experiment`.  `control_slugs` lists the slugs of the variants
with `is_control`; the single-element case yields the reference branch. -/
def ExperimentV1.to_experiment (e : ExperimentV1) : Experiment :=
  let branches := e.variants.map (fun v => { slug := v.slug, ratio := v.ratio : Branch })
  let control_slugs := (e.variants.filter (fun v => v.is_control)).map (fun v => v.slug)
  -- `if len(control_slugs) == 1: control_slug = control_slugs[0]` (else it stays None)
  let control_slug : Option String :=
    match control_slugs with
    | [s] => some s
    | _ => none
  { normandy_slug := e.normandy_slug,
    experimenter_slug := some e.slug,
    type := e.type,
    status := some e.status,
    start_date := e.start_date,
    end_date := e.end_date,
    proposed_enrollment := some e.proposed_enrollment,
    branches := branches,
    probe_sets := [],
    reference_branch := control_slug,
    -- `self.is_high_population or False`
    is_high_population :=
      match e.is_high_population with
      | some b => b || false
      | none => false }

/-- `ExperimentV6`: the intermediate record for the nimbus (v6) schema. -/
structure ExperimentV6 where
  slug : String
  branches : List Branch
  startDate : Option Instant
  endDate : Option Instant
  proposedEnrollment : Int
  referenceBranch : Option String
  probeSets : List String

/-- One decimal digit of a timestamp string. -/
def digitVal (c : Char) : Option Nat :=
  if c.isDigit then some (c.toNat - 48) else none

/-- Two decimal digits. -/
def twoDigits (c1 c2 : Char) : Option Nat := do
  let a ← digitVal c1
  let b ← digitVal c2
  some (a * 10 + b)

/-- Four decimal digits. -/
def fourDigits (c1 c2 c3 c4 : Char) : Option Nat := do
  let a ← twoDigits c1 c2
  let b ← twoDigits c3 c4
  some (a * 100 + b)

/-- Days from the Unix epoch to the civil date `y-m-d` (proleptic
Gregorian; the standard days-from-civil computation). -/
def daysFromCivil (y m d : Int) : Int :=
  let y' : Int := if m ≤ 2 then y - 1 else y
  let era : Int := (if 0 ≤ y' then y' else y' - 399) / 400
  let yoe : Int := y' - era * 400
  let mp : Int := (m + 9) % 12
  let doy : Int := (153 * mp + 2) / 5 + d - 1
  let doe : Int := yoe * 365 + yoe / 4 - yoe / 100 + doy
  era * 146097 + doe - 719468

/-- Model of `dt.datetime.fromisoformat` on the strings this module feeds
it: `YYYY-MM-DDTHH:MM:SS` followed by a `+HH:MM` or `-HH:MM` UTC offset
(the API delivers timestamps with `Z` or an explicit offset, and the `Z`
has already been rewritten to `+00:00` before this runs).  Returns the
instant in microseconds since the Unix epoch, or `none` for a string not
of that shape. -/
def fromisoformat (s : String) : Option Instant :=
  match s.toList with
  | [y1, y2, y3, y4, '-', mo1, mo2, '-', d1, d2, _sep,
     h1, h2, ':', mi1, mi2, ':', s1, s2, sign, oh1, oh2, ':', om1, om2] => do
      let y ← fourDigits y1 y2 y3 y4
      let mo ← twoDigits mo1 mo2
      let d ← twoDigits d1 d2
      let h ← twoDigits h1 h2
      let mi ← twoDigits mi1 mi2
      let sec ← twoDigits s1 s2
      let oh ← twoDigits oh1 oh2
      let om ← twoDigits om1 om2
      let offSeconds : Int := (oh : Int) * 3600 + (om : Int) * 60
      let signed : Int ←
        match sign with
        | '+' => some offSeconds
        | '-' => some (-offSeconds)
        | _ => none
      let civilSeconds : Int :=
        daysFromCivil (y : Int) (mo : Int) (d : Int) * 86400
          + (h : Int) * 3600 + (mi : Int) * 60 + (sec : Int)
      some ((civilSeconds - signed) * 1000000)
  | _ => none

/-- Python `str.replace` at the call site `num.replace("Z", "+00:00")`:
the pattern is the single character `Z`, so every occurrence of `Z` is
replaced by the replacement string. -/
def pyReplaceZ (s : String) (replacement : String) : String :=
  ⟨((s.data.map (fun c => if c = 'Z' then replacement.data else [c]))).flatten⟩

/-- The structure hook registered in `ExperimentV6.from_dict` for
`Optional[dt.datetime]` fields:
`dt.datetime.fromisoformat(num.replace("Z", "+00:00"))`.  `null` stays
`None` (handled by the `Optional` wrapper before the hook); a non-string
raises (`.replace` on a non-string). -/
def structureOptDatetimeV6 (j : Json) : Except String (Option Instant) :=
  match j with
  | Json.null => Except.ok none
  | Json.str s =>
      match fromisoformat (pyReplaceZ s "+00:00") with
      | some t => Except.ok (some t)
      | none => Except.error "ValueError: invalid isoformat string"
  | _ => Except.error "AttributeError: no attribute replace"

/-- `cattr` structuring of one raw `branches` element into a `Branch`. -/
def decodeBranch (j : Json) : Except String Branch := do
  let s ← dictGet j "slug" >>= asStr
  let r ← dictGet j "ratio" >>= asInt
  Except.ok { slug := s, ratio := r }

/-- `ExperimentV6.from_dict`: `cattr` structuring of a raw nimbus record,
with the ISO-format hook for datetime fields.  Every field is a required
key. -/
def ExperimentV6.from_dict (j : Json) : Except String ExperimentV6 := do
  let slug ← dictGet j "slug" >>= asStr
  let branches ← dictGet j "branches" >>= decodeList decodeBranch
  let startDate ← dictGet j "startDate" >>= structureOptDatetimeV6
  let endDate ← dictGet j "endDate" >>= structureOptDatetimeV6
  let pe ← dictGet j "proposedEnrollment" >>= asInt
  let rb ← dictGet j "referenceBranch" >>= asOptStr
  let ps ← dictGet j "probeSets" >>= decodeList asStr
  Except.ok
    { slug := slug, branches := branches, startDate := startDate,
      endDate := endDate, proposedEnrollment := pe, referenceBranch := rb,
      probeSets := ps }

/-- The status condition of `ExperimentV6.to_experiment`:
`(self.endDate and self.endDate >= now) or self.endDate is None`
(an aware datetime is always truthy). -/
def endDateLive (endDate : Option Instant) (now : Instant) : Bool :=
  (match endDate with
   | some d => decide (d ≥ now)
   | none => false) || endDate.isNone

/-- `ExperimentV6.to_experiment`: convert the nimbus record to the
canonical `Experiment`.  `now` models `pytz.utc.localize(dt.datetime.now())`
evaluated at conversion time. -/
def ExperimentV6.to_experiment (e : ExperimentV6) (now : Instant) : Experiment :=
  { normandy_slug := some e.slug,
    experimenter_slug := none,
    type := "v6",
    status := some (if endDateLive e.endDate now then "Live" else "Complete"),
    start_date := e.startDate,
    end_date := e.endDate,
    proposed_enrollment := some e.proposedEnrollment,
    branches := e.branches,
    probe_sets := e.probeSets,
    reference_branch := e.referenceBranch,
    is_high_population := false }

/-- `ExperimentCollection`. -/
structure ExperimentCollection where
  experiments : List Experiment

/-- The legacy loop of `ExperimentCollection.from_experimenter`:
`experiment["type"]` is read outside the `try`; a record whose type is not
`"rapid"` is structured and converted inside the `try`; on any exception
the handler logs with `experiment["slug"]` (itself a lookup that can
raise) and the loop continues. -/
def legacyParseLoop : List Json → Except String (List Experiment)
  | [] => Except.ok []
  | j :: rest => do
      let t ← dictGet j "type"
      if jsonEqStr t "rapid" then
        legacyParseLoop rest
      else
        match ExperimentV1.from_dict j with
        | Except.ok v1 => do
            let es ← legacyParseLoop rest
            Except.ok (v1.to_experiment :: es)
        | Except.error _ => do
            let _ ← dictGet j "slug"
            legacyParseLoop rest

/-- The nimbus loop of `ExperimentCollection.from_experimenter`: every
record is structured and converted inside the `try`; on any exception the
handler logs with `experiment["slug"]` and the loop continues. -/
def nimbusParseLoop (now : Instant) : List Json → Except String (List Experiment)
  | [] => Except.ok []
  | j :: rest =>
      match ExperimentV6.from_dict j with
      | Except.ok v6 => do
          let es ← nimbusParseLoop now rest
          Except.ok (v6.to_experiment now :: es)
      | Except.error _ => do
          let _ ← dictGet j "slug"
          nimbusParseLoop now rest

/-- `ExperimentCollection.from_experimenter`, after the two fetches have
produced the decoded JSON arrays: run the legacy loop, then the nimbus
loop, and concatenate nimbus results before legacy results. -/
def ExperimentCollection.from_experimenter (legacyJson nimbusJson : List Json)
    (now : Instant) : Except String ExperimentCollection := do
  let legacy ← legacyParseLoop legacyJson
  let nimbus ← nimbusParseLoop now nimbusJson
  Except.ok { experiments := nimbus ++ legacy }

/-- `ExperimentCollection.MAX_RETRIES`. -/
def ExperimentCollection.MAX_RETRIES : Nat := 3

/-- The retry loop of `_retry_get`, on its remaining fuel.  `attempt i`
models the `i`-th `session.get(url).json()`: `some v` is a successful
fetch-and-decode, `none` an exception.  The second component counts the
seconds deliberately slept (`time.sleep(1)` runs after every failed
attempt); the `for`/`else` clause raises once the range is exhausted. -/
def retryGo (url : String) (attempt : Nat → Option α) :
    Nat → Nat → Nat → Except String α × Nat
  | 0, _i, sleeps => (Except.error ("Too many retries for " ++ url), sleeps)
  | fuel + 1, i, sleeps =>
      match attempt i with
      | some v => (Except.ok v, sleeps)
      | none => retryGo url attempt fuel (i + 1) (sleeps + 1)

/-- `ExperimentCollection._retry_get`: run the retry loop for
`MAX_RETRIES` attempts, starting with no sleep accumulated. -/
def ExperimentCollection._retry_get (url : String) (attempt : Nat → Option α) :
    Except String α × Nat :=
  retryGo url attempt ExperimentCollection.MAX_RETRIES 0 0

/-- `ExperimentCollection.ever_launched`: keep experiments whose status is
in `("Complete", "Live")` or is `None`. -/
def ExperimentCollection.ever_launched (c : ExperimentCollection) : ExperimentCollection :=
  { experiments :=
      c.experiments.filter (fun ex =>
        ex.status == some "Complete" || ex.status == some "Live" || ex.status == none) }

/-! ### Helper lemmas -/

theorem except_ok_bind {ε : Type u} {α β : Type u} (a : α) (f : α → Except ε β) :
    (Except.ok a >>= f) = f a := rfl

theorem except_error_bind {ε : Type u} {α β : Type u} (e : ε) (f : α → Except ε β) :
    ((Except.error e : Except ε α) >>= f) = Except.error e := rfl

theorem except_bind_ok {ε : Type u} {α β : Type u} {x : Except ε α}
    {f : α → Except ε β} {b : β} :
    x >>= f = Except.ok b ↔ ∃ a, x = Except.ok a ∧ f a = Except.ok b := by
  cases x with
  | error e => simp [except_error_bind]
  | ok a => simp [except_ok_bind]

theorem asStr_ok {j : Json} {s : String} (h : asStr j = Except.ok s) :
    j = Json.str s := by
  cases j <;> simp_all [asStr]

theorem asOptBool_ok_some_true {j : Json} (h : asOptBool j = Except.ok (some true)) :
    j = Json.bool true := by
  cases j <;> simp_all [asOptBool]

theorem hasKey_dictGet {j : Json} {key : String} (h : hasKey j key = true) :
    ∃ v, dictGet j key = Except.ok v := by
  cases j with
  | obj fields =>
      simp only [hasKey, Option.isSome_iff_exists] at h
      obtain ⟨v, hv⟩ := h
      exact ⟨v, by simp [dictGet, hv]⟩
  | null => simp [hasKey] at h
  | bool b => simp [hasKey] at h
  | num n => simp [hasKey] at h
  | str s => simp [hasKey] at h
  | arr xs => simp [hasKey] at h

/-- Decomposition of a successful `ExperimentV1.from_dict`: the raw fields
this development reasons about, recovered from the structuring chain. -/
theorem from_dict_ok_parts {j : Json} {v1 : ExperimentV1}
    (h : ExperimentV1.from_dict j = Except.ok v1) :
    dictGet j "type" = Except.ok (Json.str v1.type) ∧
    (∃ pe, (dictGet j "proposed_enrollment" >>= asOptInt) = Except.ok pe ∧
      v1.proposed_enrollment = _coerce_none_to_zero pe) ∧
    optField j "is_high_population" asOptBool none = Except.ok v1.is_high_population := by
  simp only [ExperimentV1.from_dict, except_bind_ok, Except.ok.injEq] at h
  obtain ⟨slug, ⟨rs, hrs, hs⟩, ty, ⟨rt, hrt, ht⟩, status, ⟨rst, hrst, hst⟩,
    sd, hsd, ed, hed, pe, hpe, variants, hv, ns, hns, ihp, hihp, hrec⟩ := h
  subst hrec
  refine ⟨?_, ⟨pe, ?_, rfl⟩, ?_⟩
  · rw [hrt, asStr_ok ht]
  · rw [except_bind_ok]
    exact hpe
  · exact hihp

theorem retryGo_all_fail (url : String) (attempt : Nat → Option α) :
    ∀ fuel i sleeps, (∀ k, k < fuel → attempt (i + k) = none) →
      retryGo url attempt fuel i sleeps =
        (Except.error ("Too many retries for " ++ url), sleeps + fuel) := by
  intro fuel
  induction fuel with
  | zero => intro i sleeps _; simp [retryGo]
  | succ n ih =>
      intro i sleeps h
      have h0 : attempt i = none := by
        have := h 0 (Nat.succ_pos n)
        simpa using this
      have hrest : ∀ k, k < n → attempt (i + 1 + k) = none := by
        intro k hk
        have := h (k + 1) (by omega)
        simpa [Nat.add_assoc, Nat.add_comm 1 k] using this
      rw [retryGo, h0, ih (i + 1) (sleeps + 1) hrest]
      simp [Nat.add_assoc, Nat.add_comm 1 n]

theorem retryGo_success (url : String) (attempt : Nat → Option α) :
    ∀ fuel i sleeps j v, j < fuel → attempt (i + j) = some v →
      (∀ k, k < j → attempt (i + k) = none) →
      retryGo url attempt fuel i sleeps = (Except.ok v, sleeps + j) := by
  intro fuel
  induction fuel with
  | zero => intro i sleeps j v hj _ _; omega
  | succ n ih =>
      intro i sleeps j v hj hv hfail
      cases j with
      | zero =>
          rw [retryGo]
          simpa using congrArg (fun o => match o with
            | some w => (Except.ok w, sleeps)
            | none => retryGo url attempt n (i + 1) (sleeps + 1)) hv
      | succ m =>
          have h0 : attempt i = none := by
            have := hfail 0 (Nat.succ_pos m)
            simpa using this
          have hv' : attempt (i + 1 + m) = some v := by
            simpa [Nat.add_assoc, Nat.add_comm 1 m] using hv
          have hfail' : ∀ k, k < m → attempt (i + 1 + k) = none := by
            intro k hk
            have := hfail (k + 1) (by omega)
            simpa [Nat.add_assoc, Nat.add_comm 1 k] using this
          rw [retryGo, h0, ih (i + 1) (sleeps + 1) m v (by omega) hv' hfail']
          simp [Nat.add_assoc, Nat.add_comm 1 m]

theorem retryGo_sleeps_le (url : String) (attempt : Nat → Option α) :
    ∀ fuel i sleeps, (retryGo url attempt fuel i sleeps).2 ≤ sleeps + fuel := by
  intro fuel
  induction fuel with
  | zero => intro i sleeps; simp [retryGo]
  | succ n ih =>
      intro i sleeps
      rw [retryGo]
      cases attempt i with
      | some v => simp
      | none =>
          have := ih (i + 1) (sleeps + 1)
          simpa [Nat.add_assoc, Nat.add_comm 1 n] using this

theorem legacyParseLoop_skip_rapid {j t : Json} (rest : List Json)
    (ht : dictGet j "type" = Except.ok t) (hr : jsonEqStr t "rapid" = true) :
    legacyParseLoop (j :: rest) = legacyParseLoop rest := by
  simp only [legacyParseLoop]
  rw [ht, except_ok_bind, if_pos hr]

theorem legacyParseLoop_cons_ok {j t : Json} {v1 : ExperimentV1} (rest : List Json)
    (ht : dictGet j "type" = Except.ok t) (hr : jsonEqStr t "rapid" = false)
    (hd : ExperimentV1.from_dict j = Except.ok v1) :
    legacyParseLoop (j :: rest) =
      (legacyParseLoop rest >>= fun es => Except.ok (v1.to_experiment :: es)) := by
  simp only [legacyParseLoop]
  rw [ht, except_ok_bind, if_neg (by simp [hr]), hd]

theorem legacyParseLoop_skip_fail {j t sv : Json} {err : String} (rest : List Json)
    (ht : dictGet j "type" = Except.ok t) (hr : jsonEqStr t "rapid" = false)
    (hd : ExperimentV1.from_dict j = Except.error err)
    (hs : dictGet j "slug" = Except.ok sv) :
    legacyParseLoop (j :: rest) = legacyParseLoop rest := by
  simp only [legacyParseLoop]
  rw [ht, except_ok_bind, if_neg (by simp [hr]), hd]
  show (dictGet j "slug" >>= fun _ => legacyParseLoop rest) = legacyParseLoop rest
  rw [hs, except_ok_bind]

theorem nimbusParseLoop_cons_ok {now : Instant} {j : Json} {v6 : ExperimentV6}
    (rest : List Json) (hd : ExperimentV6.from_dict j = Except.ok v6) :
    nimbusParseLoop now (j :: rest) =
      (nimbusParseLoop now rest >>= fun es => Except.ok (v6.to_experiment now :: es)) := by
  simp only [nimbusParseLoop]
  rw [hd]

theorem nimbusParseLoop_skip_fail {now : Instant} {j sv : Json} {err : String}
    (rest : List Json) (hd : ExperimentV6.from_dict j = Except.error err)
    (hs : dictGet j "slug" = Except.ok sv) :
    nimbusParseLoop now (j :: rest) = nimbusParseLoop now rest := by
  simp only [nimbusParseLoop]
  rw [hd]
  show (dictGet j "slug" >>= fun _ => nimbusParseLoop now rest) = nimbusParseLoop now rest
  rw [hs, except_ok_bind]

/-- Every experiment produced by the legacy loop has a type other than
`"rapid"` (the loop filters on the raw `type` value before structuring,
and the structured `type` is that same raw string). -/
theorem legacyParseLoop_ok_types {l : List Json} {es : List Experiment}
    (h : legacyParseLoop l = Except.ok es) :
    ∀ e ∈ es, e.type ≠ "rapid" := by
  induction l generalizing es with
  | nil =>
      simp only [legacyParseLoop, Except.ok.injEq] at h
      subst h
      simp
  | cons j rest ih =>
      simp only [legacyParseLoop] at h
      cases ht : dictGet j "type" with
      | error e2 =>
          rw [ht, except_error_bind] at h
          exact absurd h (by simp)
      | ok t =>
          rw [ht, except_ok_bind] at h
          by_cases hr : jsonEqStr t "rapid" = true
          · rw [if_pos hr] at h
            exact ih h
          · rw [if_neg hr] at h
            cases hd : ExperimentV1.from_dict j with
            | ok v1 =>
                rw [hd] at h
                have h' : (legacyParseLoop rest >>=
                    fun es => Except.ok (v1.to_experiment :: es)) = Except.ok es := h
                rw [except_bind_ok] at h'
                obtain ⟨es', hrest, hcons⟩ := h'
                simp only [Except.ok.injEq] at hcons
                subst hcons
                intro e he
                rcases List.mem_cons.mp he with rfl | hmem
                · have hty : dictGet j "type" = Except.ok (Json.str v1.type) :=
                    (from_dict_ok_parts hd).1
                  rw [ht] at hty
                  have htv : t = Json.str v1.type := by simpa using hty
                  subst htv
                  intro hcontra
                  have hvt : v1.type = "rapid" := hcontra
                  exact hr (by simp [jsonEqStr, hvt])
                · exact ih hrest e hmem
            | error err =>
                rw [hd] at h
                have h' : (dictGet j "slug" >>=
                    fun _ => legacyParseLoop rest) = Except.ok es := h
                cases hs : dictGet j "slug" with
                | error e3 =>
                    rw [hs, except_error_bind] at h'
                    exact absurd h' (by simp)
                | ok sv =>
                    rw [hs, except_ok_bind] at h'
                    exact ih h'

/-- Every experiment produced by the nimbus loop has type `"v6"`. -/
theorem nimbusParseLoop_ok_types {now : Instant} {l : List Json} {es : List Experiment}
    (h : nimbusParseLoop now l = Except.ok es) :
    ∀ e ∈ es, e.type = "v6" := by
  induction l generalizing es with
  | nil =>
      simp only [nimbusParseLoop, Except.ok.injEq] at h
      subst h
      simp
  | cons j rest ih =>
      cases hd : ExperimentV6.from_dict j with
      | ok v6 =>
          rw [nimbusParseLoop_cons_ok rest hd, except_bind_ok] at h
          obtain ⟨es', hrest, hcons⟩ := h
          simp only [Except.ok.injEq] at hcons
          subst hcons
          intro e he
          rcases List.mem_cons.mp he with rfl | hmem
          · rfl
          · exact ih hrest e hmem
      | error err =>
          simp only [nimbusParseLoop] at h
          rw [hd] at h
          have h' : (dictGet j "slug" >>=
              fun _ => nimbusParseLoop now rest) = Except.ok es := h
          cases hs : dictGet j "slug" with
          | error e3 =>
              rw [hs, except_error_bind] at h'
              exact absurd h' (by simp)
          | ok sv =>
              rw [hs, except_ok_bind] at h'
              exact ih h'

/-- The legacy loop cannot raise when every raw record carries the keys
consulted outside the structuring `try` (`"type"`) and in the logging
handler (`"slug"`). -/
theorem legacyParseLoop_total {l : List Json}
    (h : ∀ j ∈ l, hasKey j "type" = true ∧ hasKey j "slug" = true) :
    ∃ es, legacyParseLoop l = Except.ok es := by
  induction l with
  | nil => exact ⟨[], rfl⟩
  | cons j rest ih =>
      obtain ⟨es, hes⟩ := ih (fun x hx => h x (List.mem_cons_of_mem j hx))
      obtain ⟨htk, hsk⟩ := h j (List.mem_cons_self j rest)
      obtain ⟨t, ht⟩ := hasKey_dictGet htk
      by_cases hr : jsonEqStr t "rapid" = true
      · exact ⟨es, by rw [legacyParseLoop_skip_rapid rest ht hr, hes]⟩
      · have hrf : jsonEqStr t "rapid" = false := by simpa using hr
        cases hd : ExperimentV1.from_dict j with
        | ok v1 =>
            exact ⟨v1.to_experiment :: es, by
              rw [legacyParseLoop_cons_ok rest ht hrf hd, hes, except_ok_bind]⟩
        | error err =>
            obtain ⟨sv, hsv⟩ := hasKey_dictGet hsk
            exact ⟨es, by rw [legacyParseLoop_skip_fail rest ht hrf hd hsv, hes]⟩

/-- The nimbus loop cannot raise when every raw record carries the
`"slug"` key consulted in the logging handler. -/
theorem nimbusParseLoop_total {now : Instant} {l : List Json}
    (h : ∀ j ∈ l, hasKey j "slug" = true) :
    ∃ es, nimbusParseLoop now l = Except.ok es := by
  induction l with
  | nil => exact ⟨[], rfl⟩
  | cons j rest ih =>
      obtain ⟨es, hes⟩ := ih (fun x hx => h x (List.mem_cons_of_mem j hx))
      cases hd : ExperimentV6.from_dict j with
      | ok v6 =>
          exact ⟨v6.to_experiment now :: es, by
            rw [nimbusParseLoop_cons_ok rest hd, hes, except_ok_bind]⟩
      | error err =>
          obtain ⟨sv, hsv⟩ := hasKey_dictGet (h j (List.mem_cons_self j rest))
          exact ⟨es, by rw [nimbusParseLoop_skip_fail rest hd hsv, hes]⟩

/-! ### Claims -/

/-- C1: for every V6 record, the normalized Experiment's status is
`"Live"` if its `endDate` is null or its `endDate` is `>=` the current UTC
time at conversion, and `"Complete"` otherwise; with a fixed clock value
this is a deterministic function of `endDate`. -/
theorem C1_v6_status (e : ExperimentV6) (now : Instant) :
    ((e.to_experiment now).status = some "Live" ↔
      e.endDate = none ∨ ∃ d, e.endDate = some d ∧ d ≥ now) ∧
    ((e.to_experiment now).status = some "Complete" ↔
      ¬(e.endDate = none ∨ ∃ d, e.endDate = some d ∧ d ≥ now)) ∧
    (∀ e' : ExperimentV6, e'.endDate = e.endDate →
      (e'.to_experiment now).status = (e.to_experiment now).status) := by
  refine ⟨?_, ?_, ?_⟩
  · cases he : e.endDate with
    | none => simp [ExperimentV6.to_experiment, endDateLive, he]
    | some d =>
      by_cases hd : d ≥ now <;>
        simp [ExperimentV6.to_experiment, endDateLive, he, hd]
  · cases he : e.endDate with
    | none => simp [ExperimentV6.to_experiment, endDateLive, he]
    | some d =>
      by_cases hd : d ≥ now <;>
        simp [ExperimentV6.to_experiment, endDateLive, he, hd]
  · intro e' h
    simp [ExperimentV6.to_experiment, endDateLive, h]

/-- C1 witness: two V6 records with equal `endDate` and otherwise
different fields get the same status at the same clock value. -/
theorem C1_v6_status_witness :
    ((⟨"a", [], none, some 5, 1, none, []⟩ : ExperimentV6).to_experiment 3).status =
      ((⟨"b", [], none, some 5, 2, some "x", []⟩ : ExperimentV6).to_experiment 3).status :=
  (C1_v6_status ⟨"b", [], none, some 5, 2, some "x", []⟩ 3).2.2
    ⟨"a", [], none, some 5, 1, none, []⟩ rfl

/-- C2: for every V1 record, the normalized Experiment's
`reference_branch` equals the slug of the variant with `is_control = true`
when exactly one such variant exists; with zero or more than one control
variants it is null. -/
theorem C2_reference_branch (e : ExperimentV1) :
    (∀ v, e.variants.filter (fun w => w.is_control) = [v] →
      e.to_experiment.reference_branch = some v.slug) ∧
    ((e.variants.filter (fun w => w.is_control)).length ≠ 1 →
      e.to_experiment.reference_branch = none) := by
  constructor
  · intro v hv
    simp [ExperimentV1.to_experiment, hv]
  · intro hlen
    rcases hfil : e.variants.filter (fun w => w.is_control) with _ | ⟨a, _ | ⟨b, l⟩⟩
    · simp [ExperimentV1.to_experiment, hfil]
    · exact absurd (by rw [hfil]; rfl) hlen
    · simp [ExperimentV1.to_experiment, hfil]

/-- C2 witness: a record with exactly one control variant gets that
variant's slug; a record with no control variant gets null. -/
theorem C2_reference_branch_witness :
    (ExperimentV1.to_experiment
      ⟨"s", "pref", "Live", none, none, 0,
        [⟨true, "control", 1⟩, ⟨false, "treat", 1⟩], none, none⟩).reference_branch =
      some "control" ∧
    (ExperimentV1.to_experiment
      ⟨"s", "pref", "Live", none, none, 0,
        [⟨false, "a", 1⟩, ⟨false, "b", 1⟩], none, none⟩).reference_branch = none := by
  constructor
  · exact (C2_reference_branch
      ⟨"s", "pref", "Live", none, none, 0,
        [⟨true, "control", 1⟩, ⟨false, "treat", 1⟩], none, none⟩).1
      ⟨true, "control", 1⟩ rfl
  · exact (C2_reference_branch
      ⟨"s", "pref", "Live", none, none, 0,
        [⟨false, "a", 1⟩, ⟨false, "b", 1⟩], none, none⟩).2 (by decide)

/-- C8: `ever_launched` keeps exactly the experiments whose status is
`"Complete"`, `"Live"`, or null. -/
theorem C8_ever_launched (c : ExperimentCollection) (ex : Experiment) :
    ex ∈ c.ever_launched.experiments ↔
      ex ∈ c.experiments ∧
        (ex.status = some "Complete" ∨ ex.status = some "Live" ∨ ex.status = none) := by
  simp only [ExperimentCollection.ever_launched, List.mem_filter, Bool.or_eq_true,
    beq_iff_eq]
  tauto

/-- C9: the legacy parser maps millisecond-epoch `0` to the Unix epoch
instant in UTC (`0` microseconds since the epoch) and null to null; the V6
parser maps `"2021-01-01T00:00:00Z"` to the same instant as
`"2021-01-01T00:00:00+00:00"`, namely `2021-01-01 00:00:00 UTC`
(`1609459200` seconds since the epoch), and null to null. -/
theorem C9_timestamp_agreement :
    ExperimentV1._unix_millis_to_datetime (some 0) = some 0 ∧
    ExperimentV1._unix_millis_to_datetime none = none ∧
    structureOptDatetimeV6 (Json.str "2021-01-01T00:00:00Z") =
      structureOptDatetimeV6 (Json.str "2021-01-01T00:00:00+00:00") ∧
    structureOptDatetimeV6 (Json.str "2021-01-01T00:00:00Z") =
      Except.ok (some (1609459200 * 1000000)) ∧
    structureOptDatetimeV6 Json.null = Except.ok none :=
  ⟨rfl, rfl, rfl, rfl, rfl⟩

/-- C5: `_retry_get` attempts the fetch up to `MAX_RETRIES = 3` total
times, sleeping one second after each failed attempt; if all 3 attempts
fail it raises an error naming the URL, and on the first successful
attempt it returns the decoded JSON. -/
theorem C5_retry_get (url : String) (attempt : Nat → Option α) :
    ((∀ i, i < ExperimentCollection.MAX_RETRIES → attempt i = none) →
      ExperimentCollection._retry_get url attempt =
        (Except.error ("Too many retries for " ++ url),
          ExperimentCollection.MAX_RETRIES)) ∧
    (∀ j v, j < ExperimentCollection.MAX_RETRIES → attempt j = some v →
      (∀ i, i < j → attempt i = none) →
      ExperimentCollection._retry_get url attempt = (Except.ok v, j)) := by
  constructor
  · intro h
    have := retryGo_all_fail url attempt ExperimentCollection.MAX_RETRIES 0 0
      (by simpa using h)
    simpa [ExperimentCollection._retry_get] using this
  · intro j v hj hv hfail
    have := retryGo_success url attempt ExperimentCollection.MAX_RETRIES 0 0 j v hj
      (by simpa using hv) (by simpa using hfail)
    simpa [ExperimentCollection._retry_get] using this

/-- C5 witness: three failures exhaust the retries with an error naming
the URL; a success on the second attempt returns its payload. -/
theorem C5_retry_get_witness :
    ExperimentCollection._retry_get "https://example.net/api/v1"
        (fun _ => (none : Option Json)) =
      (Except.error ("Too many retries for " ++ "https://example.net/api/v1"), 3) ∧
    ExperimentCollection._retry_get "https://example.net/api/v1"
        (fun i => if i = 1 then some (Json.num 7) else none) =
      (Except.ok (Json.num 7), 1) := by
  constructor
  · exact (C5_retry_get "https://example.net/api/v1" _).1 (fun i _ => rfl)
  · exact (C5_retry_get "https://example.net/api/v1" _).2 1 (Json.num 7) (by decide) rfl
      (by intro i hi; have h0 : i = 0 := by omega
          subst h0; rfl)

/-- C6 counterexample: with all three attempts failing, `_retry_get`
sleeps 3 seconds, not at most 2 — `time.sleep(1)` also runs after the
final failed attempt. -/
theorem C6_counterexample :
    (ExperimentCollection._retry_get "https://example.net/api/v1a"
      (fun _ => (none : Option Json))).2 = 3 ∧
    2 < (ExperimentCollection._retry_get "https://example.net/api/v1a"
      (fun _ => (none : Option Json))).2 :=
  ⟨rfl, by decide⟩

/-- C6 as amended: the deliberate sleep per invocation totals at most 3
seconds; in the worst case of 3 failed attempts exactly three 1-second
pauses occur (one after each failed attempt, including the final one). -/
theorem C6_amended_sleep_bound (url : String) (attempt : Nat → Option α) :
    (ExperimentCollection._retry_get url attempt).2 ≤ 3 ∧
    ((∀ i, i < 3 → attempt i = none) →
      (ExperimentCollection._retry_get url attempt).2 = 3) := by
  constructor
  · simpa [ExperimentCollection._retry_get, ExperimentCollection.MAX_RETRIES] using
      retryGo_sleeps_le url attempt 3 0 0
  · intro h
    rw [ExperimentCollection._retry_get,
      retryGo_all_fail url attempt ExperimentCollection.MAX_RETRIES 0 0
        (by simpa [ExperimentCollection.MAX_RETRIES] using h)]
    rfl

/-- C6 amended witness: the all-fail run sleeps exactly 3 seconds. -/
theorem C6_amended_sleep_bound_witness :
    (ExperimentCollection._retry_get "https://example.net/api/v6"
      (fun _ => (none : Option Json))).2 ≤ 3 ∧
    (ExperimentCollection._retry_get "https://example.net/api/v6"
      (fun _ => (none : Option Json))).2 = 3 :=
  ⟨(C6_amended_sleep_bound "https://example.net/api/v6" _).1,
   (C6_amended_sleep_bound "https://example.net/api/v6" _).2 (fun _ _ => rfl)⟩

/-- C7: for a legacy record that structures successfully, a null raw
`proposed_enrollment` is coerced to `0` in the normalized Experiment, and
a numeric one is carried through unchanged. -/
theorem C7_proposed_enrollment (j : Json) (v1 : ExperimentV1)
    (h : ExperimentV1.from_dict j = Except.ok v1) :
    (dictGet j "proposed_enrollment" = Except.ok Json.null →
      v1.to_experiment.proposed_enrollment = some 0) ∧
    (∀ n : Int, dictGet j "proposed_enrollment" = Except.ok (Json.num n) →
      v1.to_experiment.proposed_enrollment = some n) := by
  obtain ⟨-, ⟨pe, hpe, hcoerce⟩, -⟩ := from_dict_ok_parts h
  have hval : v1.to_experiment.proposed_enrollment = some v1.proposed_enrollment := rfl
  constructor
  · intro hnull
    rw [hnull, except_ok_bind] at hpe
    have hpen : pe = none := by simpa [asOptInt] using hpe.symm
    subst hpen
    rw [hval, hcoerce]
    rfl
  · intro n hn
    rw [hn, except_ok_bind] at hpe
    have hpen : pe = some n := by simpa [asOptInt] using hpe.symm
    subst hpen
    rw [hval, hcoerce]
    rfl

/-- C7 witness: a record with `proposed_enrollment: null` normalizes to
`0`; one with `proposed_enrollment: 14` keeps `14`. -/
theorem C7_proposed_enrollment_witness :
    (ExperimentV1.to_experiment
      ⟨"a", "pref", "Live", none, none, 0, [], none, none⟩).proposed_enrollment =
      some 0 ∧
    (ExperimentV1.to_experiment
      ⟨"a", "pref", "Live", none, none, 14, [], none, none⟩).proposed_enrollment =
      some 14 := by
  constructor
  · exact (C7_proposed_enrollment
      (Json.obj [("slug", Json.str "a"), ("type", Json.str "pref"),
        ("status", Json.str "Live"), ("start_date", Json.null),
        ("end_date", Json.null), ("proposed_enrollment", Json.null),
        ("variants", Json.arr [])]) _ rfl).1 rfl
  · exact (C7_proposed_enrollment
      (Json.obj [("slug", Json.str "a"), ("type", Json.str "pref"),
        ("status", Json.str "Live"), ("start_date", Json.null),
        ("end_date", Json.null), ("proposed_enrollment", Json.num 14),
        ("variants", Json.arr [])]) _ rfl).2 14 rfl

/-- C10: for a legacy record that structures successfully, the normalized
`is_high_population` flag is `false` when the raw field is absent, null or
`false`, and is `true` exactly when the raw field is `true`. -/
theorem C10_is_high_population (j : Json) (v1 : ExperimentV1)
    (h : ExperimentV1.from_dict j = Except.ok v1) :
    (hasKey j "is_high_population" = false →
      v1.to_experiment.is_high_population = false) ∧
    (dictGet j "is_high_population" = Except.ok Json.null →
      v1.to_experiment.is_high_population = false) ∧
    (dictGet j "is_high_population" = Except.ok (Json.bool false) →
      v1.to_experiment.is_high_population = false) ∧
    (v1.to_experiment.is_high_population = true ↔
      dictGet j "is_high_population" = Except.ok (Json.bool true)) := by
  obtain ⟨-, -, hihp⟩ := from_dict_ok_parts h
  have hval : v1.to_experiment.is_high_population =
      (match v1.is_high_population with
       | some b => b || false
       | none => false) := rfl
  cases j with
  | null => simp [optField] at hihp
  | bool b => simp [optField] at hihp
  | num n => simp [optField] at hihp
  | str s => simp [optField] at hihp
  | arr xs => simp [optField] at hihp
  | obj fields =>
      simp only [optField] at hihp
      cases hl : fields.lookup "is_high_population" with
      | none =>
          rw [hl] at hihp
          have hnone : v1.is_high_population = none := by simpa using hihp.symm
          refine ⟨fun _ => by rw [hval, hnone], fun _ => by rw [hval, hnone],
            fun _ => by rw [hval, hnone], ?_⟩
          constructor
          · intro ht
            rw [hval, hnone] at ht
            simp at ht
          · intro hd
            simp [dictGet, hl] at hd
      | some v =>
          rw [hl] at hihp
          have hdg : dictGet (Json.obj fields) "is_high_population" = Except.ok v := by
            simp [dictGet, hl]
          cases v with
          | null =>
              have hnone : v1.is_high_population = none := by
                simpa [asOptBool] using hihp.symm
              refine ⟨fun _ => by rw [hval, hnone], fun _ => by rw [hval, hnone],
                fun _ => by rw [hval, hnone], ?_⟩
              constructor
              · intro ht
                rw [hval, hnone] at ht
                simp at ht
              · intro hd
                rw [hdg] at hd
                simp at hd
          | bool b =>
              have hsb : v1.is_high_population = some b := by
                simpa [asOptBool] using hihp.symm
              refine ⟨?_, ?_, ?_, ?_⟩
              · intro hk
                simp [hasKey, hl] at hk
              · intro hd
                rw [hdg] at hd
                simp at hd
              · intro hd
                rw [hdg] at hd
                simp only [Except.ok.injEq, Json.bool.injEq] at hd
                rw [hval, hsb]
                simp [hd]
              · constructor
                · intro ht
                  rw [hval, hsb] at ht
                  simp at ht
                  rw [hdg, ht]
                · intro hd
                  rw [hdg] at hd
                  simp only [Except.ok.injEq, Json.bool.injEq] at hd
                  rw [hval, hsb]
                  simp [hd]
          | num n => simp [asOptBool] at hihp
          | str s => simp [asOptBool] at hihp
          | arr xs => simp [asOptBool] at hihp
          | obj fs => simp [asOptBool] at hihp

/-- C10 witness: a record with no `is_high_population` key normalizes the
flag to `false`. -/
theorem C10_is_high_population_witness :
    (ExperimentV1.to_experiment
      ⟨"a", "pref", "Live", none, none, 0, [], none, none⟩).is_high_population =
      false :=
  (C10_is_high_population
    (Json.obj [("slug", Json.str "a"), ("type", Json.str "pref"),
      ("status", Json.str "Live"), ("start_date", Json.null),
      ("end_date", Json.null), ("proposed_enrollment", Json.null),
      ("variants", Json.arr [])]) _ rfl).1 rfl

/-- C3: records whose raw `type` equals `"rapid"` are excluded entirely
from the legacy results: no experiment of type `"rapid"` ever appears in a
successfully built collection, and a `"rapid"` record contributes nothing
to the legacy loop (its parse is never attempted — the loop's result does
not depend on any of its other fields). -/
theorem C3_rapid_excluded (legacyJson nimbusJson : List Json) (now : Instant) :
    (∀ c, ExperimentCollection.from_experimenter legacyJson nimbusJson now =
        Except.ok c →
      ∀ e ∈ c.experiments, e.type ≠ "rapid") ∧
    (∀ j rest, dictGet j "type" = Except.ok (Json.str "rapid") →
      legacyParseLoop (j :: rest) = legacyParseLoop rest) := by
  constructor
  · intro c hc e he
    simp only [ExperimentCollection.from_experimenter, except_bind_ok] at hc
    obtain ⟨legacy, hleg, nimbus, hnim, hc⟩ := hc
    simp only [Except.ok.injEq] at hc
    subst hc
    rcases List.mem_append.mp he with hn | hl
    · rw [nimbusParseLoop_ok_types hnim e hn]
      decide
    · exact legacyParseLoop_ok_types hleg e hl
  · intro j rest ht
    exact legacyParseLoop_skip_rapid rest ht rfl

/-- C3 witness: a raw record whose `type` is `"rapid"` is dropped by the
legacy loop without its parse being attempted. -/
theorem C3_rapid_excluded_witness :
    legacyParseLoop [Json.obj [("type", Json.str "rapid")]] = legacyParseLoop [] :=
  (C3_rapid_excluded [] [] 0).2 (Json.obj [("type", Json.str "rapid")]) [] rfl

/-- C4 counterexample: one malformed record can make collection
construction fail.  A nimbus record that is an empty object fails to
structure (missing required `slug`), and the logging in the exception
handler then evaluates `experiment["slug"]`, raising an uncaught
`KeyError` that aborts `from_experimenter` instead of skipping the
record. -/
theorem C4_counterexample :
    ExperimentCollection.from_experimenter [] [Json.obj []] 0 =
      Except.error "KeyError: slug" := rfl

/-- C4 as amended: a record that fails to structure is dropped after
logging and processing continues, provided the raw record carries the keys
the loop reads outside the protected structuring: `"slug"` (used by the
logging handler, both endpoints) and, for legacy records, `"type"` (read
before the `try`).  Under those conditions one malformed record never
makes collection construction fail; without them the bare `experiment[...]`
lookup raises and aborts the build. -/
theorem C4_amended_skip_and_continue (legacyJson nimbusJson : List Json) (now : Instant) :
    ((∀ j ∈ legacyJson, hasKey j "type" = true ∧ hasKey j "slug" = true) →
      (∀ j ∈ nimbusJson, hasKey j "slug" = true) →
      ∃ c, ExperimentCollection.from_experimenter legacyJson nimbusJson now =
        Except.ok c) ∧
    (∀ j rest sv err, dictGet j "slug" = Except.ok sv →
      ExperimentV6.from_dict j = Except.error err →
      nimbusParseLoop now (j :: rest) = nimbusParseLoop now rest) ∧
    (∀ j rest t sv err, dictGet j "type" = Except.ok t →
      jsonEqStr t "rapid" = false →
      dictGet j "slug" = Except.ok sv →
      ExperimentV1.from_dict j = Except.error err →
      legacyParseLoop (j :: rest) = legacyParseLoop rest) := by
  refine ⟨?_, ?_, ?_⟩
  · intro hleg hnim
    obtain ⟨les, hles⟩ := legacyParseLoop_total hleg
    obtain ⟨nes, hnes⟩ := nimbusParseLoop_total hnim
    refine ⟨⟨nes ++ les⟩, ?_⟩
    simp only [ExperimentCollection.from_experimenter]
    rw [hles, except_ok_bind, hnes, except_ok_bind]
  · intro j rest sv err hs hd
    exact nimbusParseLoop_skip_fail rest hd hs
  · intro j rest t sv err ht hr hs hd
    exact legacyParseLoop_skip_fail rest ht hr hd hs

/-- C4 amended witness: a nimbus record carrying a `slug` key but missing
its other required fields is skipped and the loop continues. -/
theorem C4_amended_skip_and_continue_witness :
    nimbusParseLoop 0 [Json.obj [("slug", Json.str "b")]] = nimbusParseLoop 0 [] :=
  (C4_amended_skip_and_continue [] [Json.obj [("slug", Json.str "b")]] 0).2.1
    (Json.obj [("slug", Json.str "b")]) [] (Json.str "b") "KeyError: branches" rfl rfl

end Jetstream
